import Mathlib

/-!
Verification development for the timeclock repository.

Shallow embedding conventions:
* Timestamps are integers (seconds since the Unix epoch); calendar dates are
  integers (days since the epoch).  `pyDate` extracts the date of a timestamp,
  matching Python's `date()` / SQLite's `DATE()` at this granularity.
* `date.weekday()` in Python returns Monday=0 … Sunday=6; 1970-01-01 (day 0)
  is a Thursday, so `weekday d = (d + 3) % 7`.  Lean's `%` on `Int` is
  Euclidean modulo, which agrees with Python's `%` for a positive modulus.
* Monetary amounts and hour counts are rationals: the Python floats are
  modelled by exact arithmetic.
* Each call of `datetime.now()` in the source is an explicit parameter of the
  embedded function, in source order.
* Python exceptions are modelled by `Except PyErr`; `PyErr.typeError` covers
  both calling a function with too many arguments and subscripting `None`.
* Python truthiness tests (`if self.current_session_id:`,
  `if session['earnings']`) are modelled by explicit `pyTruthy…` functions.
-/

/-- Python date-of-timestamp: days since the epoch of a timestamp in seconds. -/
def pyDate (ts : Int) : Int := ts / 86400

/-- Python `date.weekday()` on a day number: Monday=0 … Sunday=6. -/
def weekday (d : Int) : Int := (d + 3) % 7

/-- Python run-time errors relevant to the embedded code. -/
inductive PyErr where
  | typeError
deriving DecidableEq, Repr

/-- Row of the `sessions` table (database.py, `_init_database`):
`start_time` is NOT NULL, `end_time`, `earnings` and `memo` are nullable. -/
structure Session where
  id : Int
  start_time : Int
  end_time : Option Int
  earnings : Option ℚ
  memo : Option String
deriving DecidableEq, Repr

/-- Row of the `billing_cycles` table. -/
structure BillingCycle where
  id : Int
  name : String
  start_date : Int
  end_date : Int
deriving DecidableEq, Repr

/-- The persistent store (database.py, class `Database`): the two tables the
claims are about, plus the AUTOINCREMENT counters.  SQLite AUTOINCREMENT ids
start at 1, hence the invariant-free convention `nextSessionId ≥ 1` at the
initial store. -/
structure Store where
  sessions : List Session
  cycles : List BillingCycle
  nextSessionId : Int
  nextCycleId : Int
deriving DecidableEq, Repr

/-- A fresh store, as produced by `Database._init_database` on a new file. -/
def emptyStore : Store := ⟨[], [], 1, 1⟩

/-- Helper for `ORDER BY key DESC LIMIT 1`: the element with the largest key
(first such element on ties), `none` on the empty list. -/
def pickLatest (key : α → Int) (l : List α) : Option α :=
  l.foldl
    (fun acc x =>
      match acc with
      | none => some x
      | some b => if key b < key x then some x else some b)
    none

/-- Python truthiness of `self.current_session_id` (`None` and `0` are falsy). -/
def pyTruthyId : Option Int → Bool
  | none => false
  | some n => n != 0

/-- Python truthiness of a nullable earnings value (`None` and `0.0` are falsy). -/
def pyTruthyEarnings : Option ℚ → Bool
  | none => false
  | some x => x != 0

/-- `Database.start_session`: INSERT a new row with only `start_time` set,
stamped with `datetime.now()` (the parameter `now`); returns `lastrowid`. -/
def start_session (now : Int) (st : Store) : Int × Store :=
  (st.nextSessionId,
   { st with
      sessions := st.sessions ++ [⟨st.nextSessionId, now, none, none, none⟩]
      nextSessionId := st.nextSessionId + 1 })

/-- `Database.end_session`: UPDATE the rows with the given id, setting
`end_time` to `datetime.now()` (the parameter `now`), `earnings` and `memo`. -/
def end_session (sessionId : Int) (earnings : ℚ) (memo : String) (now : Int)
    (st : Store) : Store :=
  { st with
      sessions := st.sessions.map fun s =>
        if s.id = sessionId then
          { s with end_time := some now, earnings := some earnings, memo := some memo }
        else s }

/-- `Database.get_current_session`: the most recent row with NULL `end_time`
(`ORDER BY start_time DESC LIMIT 1`), or `none`. -/
def get_current_session (st : Store) : Option Session :=
  pickLatest (fun s => s.start_time) (st.sessions.filter fun s => s.end_time.isNone)

/-- SQLite `? BETWEEN start_date AND end_date` on a cycle row. -/
def covers (today : Int) (c : BillingCycle) : Bool :=
  decide (c.start_date ≤ today ∧ today ≤ c.end_date)

/-- `Database.get_current_billing_cycle`: the cycle whose inclusive date range
contains `today`, most recently started first. -/
def get_current_billing_cycle (today : Int) (st : Store) : Option BillingCycle :=
  pickLatest (fun c => c.start_date) (st.cycles.filter (covers today))

/-- `Database.create_billing_cycle`: INSERT a cycle row, returning `lastrowid`. -/
def create_billing_cycle (name : String) (startDate endDate : Int) (st : Store) :
    Int × Store :=
  (st.nextCycleId,
   { st with
      cycles := st.cycles ++ [⟨st.nextCycleId, name, startDate, endDate⟩]
      nextCycleId := st.nextCycleId + 1 })

/-- SQL `SELECT SUM(earnings) …`: NULL when no row matched, otherwise the sum. -/
def sql_sum_earnings (rows : List Session) : Option ℚ :=
  if rows.isEmpty then none else some ((rows.map fun s => s.earnings.getD 0).sum)

/-- `Database.get_billing_cycle_earnings`: look the cycle up by id, sum the
earnings over the sessions whose start date falls in the cycle's range and
whose earnings are not NULL; the final line
`result['total'] if result and result['total'] else 0.0` maps a NULL or falsy
(zero) total to `0.0`. -/
def get_billing_cycle_earnings (cycleId : Int) (st : Store) : ℚ :=
  match st.cycles.find? (fun c => decide (c.id = cycleId)) with
  | none => 0
  | some c =>
    match sql_sum_earnings (st.sessions.filter fun s =>
      decide (c.start_date ≤ pyDate s.start_time ∧ pyDate s.start_time ≤ c.end_date ∧
        s.earnings ≠ none)) with
    | none => 0
    | some t => if t = 0 then 0 else t

/-- `Database.get_sessions_for_period`: the sessions whose start date lies in
the inclusive range, in ascending start-time order.  (Order is irrelevant to
the claims below, which only sum over or count the result.) -/
def get_sessions_for_period (startDate endDate : Int) (st : Store) : List Session :=
  (st.sessions.filter fun s =>
    decide (startDate ≤ pyDate s.start_time ∧ pyDate s.start_time ≤ endDate)).mergeSort
    (fun a b => a.start_time ≤ b.start_time)

/-- In-memory state of `models.TimeClock`: the store it owns, the cached id of
the open session, and the active hourly rate. -/
structure TimeClock where
  db : Store
  current_session_id : Option Int
  hourly_rate : ℚ
deriving DecidableEq, Repr

/-- `TimeClock.is_clocked_in`: `self.current_session_id is not None`. -/
def is_clocked_in (tc : TimeClock) : Bool := tc.current_session_id.isSome

/-- `models.TimeClock.clock_in`.  `tIns` is the `datetime.now()` sampled inside
`Database.start_session`; `tRet` is the later `datetime.now()` of the
`return` statement.  When `current_session_id` is truthy the code executes
`session['start_time']` on the result of `get_current_session`; if that result
is `None`, Python raises a `TypeError` (subscripting `None`). -/
def clock_in (tIns tRet : Int) (tc : TimeClock) : Except PyErr (Int × TimeClock) :=
  if pyTruthyId tc.current_session_id then
    match get_current_session tc.db with
    | none => .error .typeError
    | some sess => .ok (sess.start_time, tc)
  else
    let (sid, st) := start_session tIns tc.db
    .ok (tRet, { tc with db := st, current_session_id := some sid })

/-- `models.TimeClock.clock_out`.  The source takes no argument besides `self`.
`tCalc` is the `datetime.now()` used for the duration (models.py line 57);
`tEnd` is the separate `datetime.now()` sampled inside `Database.end_session`
(database.py line 95).  The memo argument of `end_session` is left at its
default `""`. -/
def clock_out (tCalc tEnd : Int) (tc : TimeClock) : Option ℚ × TimeClock :=
  if pyTruthyId tc.current_session_id then
    match get_current_session tc.db with
    | none => (none, tc)
    | some sess =>
      let hours_worked : ℚ := ((tCalc - sess.start_time : Int) : ℚ) / 3600
      let earnings : ℚ := hours_worked * tc.hourly_rate
      let st := end_session (tc.current_session_id.getD 0) earnings "" tEnd tc.db
      (some earnings, { tc with db := st, current_session_id := none })
  else (none, tc)

/-- Number of parameters of `models.TimeClock.clock_out` besides `self`:
the source reads `def clock_out(self) -> Optional[float]:`. -/
def clockOutParamCount : Nat := 0

/-- The Python call `self.timeclock.clock_out(memo)` (main.py line 96): one
positional argument is passed, so the call raises `TypeError` unless the
method accepts at least one parameter besides `self`. -/
def call_clock_out_with_memo (memo : String) (tCalc tEnd : Int) (tc : TimeClock) :
    Except PyErr (Option ℚ × TimeClock) :=
  if 1 ≤ clockOutParamCount then
    .ok (clock_out tCalc tEnd tc)
  else
    .error .typeError

/-- `main.TimeclockApp.cleanup`, restricted to its state-changing part: when
`auto_clock_out` is set and the clock is in the Active state, the user is
prompted for a memo and `clock_out(memo)` is called.  The first component of a
successful result is `some earnings` when the auto-clock-out path ran. -/
def cleanup (autoClockOut : Bool) (memo : String) (tCalc tEnd : Int)
    (tc : TimeClock) : Except PyErr (Option (Option ℚ) × TimeClock) :=
  if autoClockOut && is_clocked_in tc then
    match call_clock_out_with_memo memo tCalc tEnd tc with
    | .error e => .error e
    | .ok (earnings, tc') => .ok (some earnings, tc')
  else
    .ok (none, tc)

/-- The days-since-Friday computation of `TimeClock._ensure_billing_cycle`:
`days_since_friday = (today.weekday() - 4) % 7`, then
`cycle_start = today - timedelta(days=days_since_friday)`. -/
def cycleStartFor (today : Int) : Int := today - ((weekday today - 4) % 7)

/-- Cycle display name (models.py line 34).  The `%m/%d` calendar rendering of
the two dates is presentational; here the day numbers themselves stand in. -/
def cycleName (cycleStart cycleEnd : Int) : String :=
  "Pay Period " ++ toString cycleStart ++ " - " ++ toString cycleEnd

/-- `TimeClock._ensure_billing_cycle`: if no cycle covers `today`, create a
bi-weekly cycle starting on the most recent Friday on or before `today` and
ending 13 days later. -/
def ensure_billing_cycle (today : Int) (st : Store) : Store :=
  match get_current_billing_cycle today st with
  | some _ => st
  | none =>
    let cycleStart := cycleStartFor today
    let cycleEnd := cycleStart + 13
    (create_billing_cycle (cycleName cycleStart cycleEnd) cycleStart cycleEnd st).2

/-- The cycle row that `ensure_billing_cycle` inserts when none covers today. -/
def derivedCycle (today : Int) (st : Store) : BillingCycle :=
  ⟨st.nextCycleId, cycleName (cycleStartFor today) (cycleStartFor today + 13),
   cycleStartFor today, cycleStartFor today + 13⟩

/-- `TimeclockEditor.edit_start_time`, successful parse: recompute earnings
from the session dict's end time when it is present (otherwise keep the dict's
earnings), then UPDATE `start_time` and `earnings` on the row with the dict's
id. -/
def edit_start_time (sess : Session) (newStart : Int) (hourlyRate : ℚ)
    (st : Store) : Store :=
  let newEarnings : Option ℚ :=
    match sess.end_time with
    | some endTime => some (((endTime - newStart : Int) : ℚ) / 3600 * hourlyRate)
    | none => sess.earnings
  { st with
      sessions := st.sessions.map fun s =>
        if s.id = sess.id then
          { s with start_time := newStart, earnings := newEarnings }
        else s }

/-- `TimeclockEditor.edit_end_time`, successful parse: on input `'null'` the
new end time is NULL and earnings are `0.0`; otherwise recompute earnings from
the session dict's start time; then UPDATE `end_time` and `earnings` on the
row with the dict's id. -/
def edit_end_time (sess : Session) (newEnd : Option Int) (hourlyRate : ℚ)
    (st : Store) : Store :=
  let newEarnings : ℚ :=
    match newEnd with
    | none => 0
    | some endTime => ((endTime - sess.start_time : Int) : ℚ) / 3600 * hourlyRate
  { st with
      sessions := st.sessions.map fun s =>
        if s.id = sess.id then
          { s with end_time := newEnd, earnings := some newEarnings }
        else s }

/-- `TimeclockEditor.edit_earnings`, successful parse: UPDATE `earnings` only. -/
def edit_earnings (sess : Session) (newEarnings : ℚ) (st : Store) : Store :=
  { st with
      sessions := st.sessions.map fun s =>
        if s.id = sess.id then { s with earnings := some newEarnings } else s }

/-- `TimeclockEditor.delete_session`: DELETE the row with the dict's id. -/
def delete_session (sess : Session) (st : Store) : Store :=
  { st with sessions := st.sessions.filter fun s => !decide (s.id = sess.id) }

/-- `TimeclockEditor.create_new_session`, successful parses: INSERT a row with
the given start, optional end (`None` for an active session) and earnings
(defaulting to `0.0`); `memo` is not supplied and stays NULL. -/
def create_new_session (startDt : Int) (endDt : Option Int) (earnings : ℚ)
    (st : Store) : Store :=
  { st with
      sessions := st.sessions ++ [⟨st.nextSessionId, startDt, endDt, some earnings, none⟩]
      nextSessionId := st.nextSessionId + 1 }

/-- Recognized keys of `config.json` (spec section 6), each optional since a
JSON object need not carry all of them. -/
structure AppConfig where
  hourly_rate : Option ℚ
  billing_cycle_type : Option String
  auto_clock_in : Option Bool
  auto_clock_out : Option Bool
  database_path : Option String
deriving DecidableEq, Repr

/-- Observable state of the `config.json` file. -/
inductive ConfigFile where
  | missing
  | malformed
  | valid (c : AppConfig)
deriving DecidableEq, Repr

/-- The default dict written by `TimeclockApp.load_config` (main.py 39-45). -/
def defaultConfig : AppConfig :=
  ⟨some 50, some "monthly", some true, some true, some "timeclock.db"⟩

/-- The fallback dict of `TimeclockExporter.load_config` (export.py line 24):
only `database_path`. -/
def exporterFallbackConfig : AppConfig :=
  ⟨none, none, none, none, some "timeclock.db"⟩

/-- `TimeclockApp.load_config`: returns the adopted config and the resulting
file state.  Missing file: adopt the defaults and write them out.  Malformed
JSON: adopt the defaults in memory, leave the file alone.  Neither branch
re-raises. -/
def app_load_config : ConfigFile → AppConfig × ConfigFile
  | .missing => (defaultConfig, .valid defaultConfig)
  | .malformed => (defaultConfig, .malformed)
  | .valid c => (c, .valid c)

/-- `TimeclockExporter.load_config`: both `FileNotFoundError` and
`JSONDecodeError` fall back to `{'database_path': 'timeclock.db'}` and the
file is never written. -/
def exporter_load_config : ConfigFile → AppConfig × ConfigFile
  | .missing => (exporterFallbackConfig, .missing)
  | .malformed => (exporterFallbackConfig, .malformed)
  | .valid c => (c, .valid c)

/-- One data row of the exported CSV (export.py lines 105-113); the strftime
and currency renderings are presentational, so the row carries the underlying
values: the earnings cell renders `$0.00` exactly when the session's earnings
are falsy (NULL or `0.0`). -/
structure CsvRow where
  rowDate : Int
  rowStart : Int
  rowEnd : Int
  durationHours : ℚ
  rateCell : ℚ
  earningsCell : ℚ
  memoCell : String
deriving DecidableEq, Repr

/-- The CSV row written for a completed session. -/
def mkCsvRow (hourlyRate : ℚ) (s : Session) (endTime : Int) : CsvRow :=
  ⟨pyDate s.start_time, s.start_time, endTime,
   ((endTime - s.start_time : Int) : ℚ) / 3600, hourlyRate,
   if pyTruthyEarnings s.earnings then s.earnings.getD 0 else 0,
   s.memo.getD ""⟩

/-- The session loop of `TimeclockExporter.export_to_csv`: skip sessions
without an end time; for the rest write a row, add its duration to
`total_hours`, and add the session's earnings to `total_earnings` only when
they are truthy.  Returns the written rows and the two totals of the trailing
`TOTAL:` row. -/
def export_to_csv (hourlyRate : ℚ) : List Session → List CsvRow × ℚ × ℚ
  | [] => ([], 0, 0)
  | s :: rest =>
    let prev := export_to_csv hourlyRate rest
    match s.end_time with
    | none => prev
    | some endTime =>
      (mkCsvRow hourlyRate s endTime :: prev.1,
       prev.2.1 + ((endTime - s.start_time : Int) : ℚ) / 3600,
       if pyTruthyEarnings s.earnings then prev.2.2 + s.earnings.getD 0
       else prev.2.2)

/-- Number of open sessions (rows with a NULL `end_time`) in a session list. -/
def countOpen (l : List Session) : Nat := l.countP fun s => s.end_time.isNone

/-- The spec's session invariant: at most one session has a NULL end time. -/
def atMostOneOpen (st : Store) : Prop := countOpen st.sessions ≤ 1

instance (st : Store) : Decidable (atMostOneOpen st) :=
  inferInstanceAs (Decidable (countOpen st.sessions ≤ 1))

/-- Specification-side restatement of `billingCycleEarnings`, following the
spec's words: the sum of `earnings` over all sessions whose start date lies in
the cycle's inclusive date range, excluding sessions with NULL earnings; zero
when the cycle id is unknown. -/
def cycle_earnings_spec (cycleId : Int) (st : Store) : ℚ :=
  match st.cycles.find? (fun c => decide (c.id = cycleId)) with
  | none => 0
  | some c =>
    ((st.sessions.filter fun s =>
        decide (c.start_date ≤ pyDate s.start_time ∧ pyDate s.start_time ≤ c.end_date ∧
          s.earnings ≠ none)).map fun s => s.earnings.getD 0).sum

/-- Fixture: an open session, id 1, started at timestamp 100. -/
def openSess : Session := ⟨1, 100, none, none, none⟩

/-- Fixture: a completed session, id 2, from timestamp 100 to 200. -/
def closedSess : Session := ⟨2, 100, some 200, some 5, none⟩

/-- Fixture: a clock in the Active state over a one-session store. -/
def tcActive : TimeClock := ⟨⟨[openSess], [], 2, 1⟩, some 1, 50⟩

/-- Fixture: a clock in the Idle state over an empty store. -/
def tcIdle : TimeClock := ⟨emptyStore, none, 50⟩

/-- Fixture: a clock whose cached session id points at a session that is no
longer open in the store. -/
def tcStale : TimeClock := ⟨⟨[closedSess], [], 3, 1⟩, some 2, 50⟩

/-- Fixture: a store satisfying the open-session invariant, with one open
session (id 1) and one completed session (id 2). -/
def stInv : Store := ⟨[⟨1, 0, none, none, none⟩, closedSess], [], 3, 1⟩

/-- Fixture: a store with one billing cycle (days 0-13) and one completed
session on day 2. -/
def stCycleFix : Store :=
  ⟨[⟨1, 172800, some 176400, some 50, none⟩], [⟨1, "Pay Period 0 - 13", 0, 13⟩], 2, 2⟩

/-- Fixture: the row of `tcActive`'s store after `clock_out 3700 3701`; its
earnings value `(3700 - 100)/3600 * 50` equals `50`. -/
def coSess : Session :=
  ⟨1, 100, some 3701, some (((3700 - 100 : Int) : ℚ) / 3600 * 50), some ""⟩

/-- Fixture: `closedSess` after its start time is edited to 110 at rate 50. -/
def editStartRow : Session :=
  ⟨2, 110, some 200, some (((200 - 110 : Int) : ℚ) / 3600 * 50), none⟩

/-- Fixture: `closedSess` after its end time is edited to 300 at rate 50. -/
def editEndRow : Session :=
  ⟨2, 100, some 300, some (((300 - 100 : Int) : ℚ) / 3600 * 50), none⟩

/-- Fixture: `closedSess` after its end time is edited to `'null'`. -/
def editNullRow : Session := ⟨2, 100, none, some 0, none⟩

/-! ### Helper lemmas -/

theorem pickLatest_foldl_isSome (key : α → Int) (l : List α) (b : α) :
    (List.foldl
      (fun acc x =>
        match acc with
        | none => some x
        | some c => if key c < key x then some x else some c)
      (some b) l).isSome = true := by
  induction l generalizing b with
  | nil => rfl
  | cons x t ih =>
    simp only [List.foldl]
    split
    · exact ih _
    · exact ih _

theorem pickLatest_eq_none_iff (key : α → Int) (l : List α) :
    pickLatest key l = none ↔ l = [] := by
  cases l with
  | nil => exact ⟨fun _ => rfl, fun _ => rfl⟩
  | cons x t =>
    constructor
    · intro h
      have hs : (pickLatest key (x :: t)).isSome = true :=
        pickLatest_foldl_isSome key t x
      rw [h] at hs
      cases hs
    · intro h
      cases h

theorem get_current_session_eq_none (st : Store)
    (h : ∀ s ∈ st.sessions, s.end_time ≠ none) :
    get_current_session st = none := by
  unfold get_current_session
  rw [pickLatest_eq_none_iff, List.filter_eq_nil_iff]
  intro s hs
  simpa [Option.isNone_iff_eq_none] using h s hs

theorem countOpen_map_close (f : Session → Session)
    (hf : ∀ s, (f s).end_time.isNone = true → s.end_time.isNone = true) :
    ∀ l : List Session, countOpen (l.map f) ≤ countOpen l := by
  intro l
  induction l with
  | nil => simp [countOpen]
  | cons s rest ih =>
    simp only [countOpen, List.map_cons, List.countP_cons] at ih ⊢
    refine Nat.add_le_add ih ?_
    by_cases h : (f s).end_time.isNone = true
    · have h2 := hf s h
      simp [h, h2]
    · simp [h]

theorem countOpen_end_session (sessionId : Int) (earnings : ℚ) (memo : String)
    (now : Int) (st : Store) :
    countOpen (end_session sessionId earnings memo now st).sessions ≤
      countOpen st.sessions := by
  have hf : ∀ s : Session,
      ((fun s => if s.id = sessionId then
          { s with end_time := some now, earnings := some earnings, memo := some memo }
        else s) s).end_time.isNone = true → s.end_time.isNone = true := by
    intro s hs
    by_cases h : s.id = sessionId
    · simp [h] at hs
    · simpa [h] using hs
  simpa [end_session, countOpen] using countOpen_map_close _ hf st.sessions

/-! ### C1, C5, C10: the clock state machine -/

/-- C1: in every Active state, the auto-clock-out path of
`TimeclockApp.cleanup` calls `clock_out(memo)`, but `TimeClock.clock_out`
takes no argument besides `self`, so the call raises `TypeError` instead of
closing the session with the memo. -/
theorem cleanup_clock_out_memo_type_error (tc : TimeClock) (memo : String)
    (tCalc tEnd : Int) (h : is_clocked_in tc = true) :
    cleanup true memo tCalc tEnd tc = .error .typeError := by
  simp [cleanup, call_clock_out_with_memo, clockOutParamCount, h]

/-- Witness for C1 at a concrete Active state. -/
theorem cleanup_clock_out_memo_type_error_witness :
    cleanup true "lunch" 3700 3701 tcActive = .error .typeError :=
  cleanup_clock_out_memo_type_error tcActive "lunch" 3700 3701 (by decide)

/-- C5: clocking in while already Active returns the open session's start time
and changes nothing; clocking out while Idle returns `none` and changes
nothing. -/
theorem clock_in_active_clock_out_idle_noop (tc : TimeClock) (i : Int)
    (sess : Session) (tIns tRet tCalc tEnd : Int)
    (hid : tc.current_session_id = some i) (hi : i ≠ 0)
    (hsess : get_current_session tc.db = some sess) :
    clock_in tIns tRet tc = .ok (sess.start_time, tc) ∧
    ∀ tc' : TimeClock, tc'.current_session_id = none →
      clock_out tCalc tEnd tc' = (none, tc') := by
  constructor
  · simp [clock_in, pyTruthyId, hid, hi, hsess]
  · intro tc' h
    simp [clock_out, pyTruthyId, h]

/-- Witness for C5 at concrete Active and Idle states. -/
theorem clock_in_active_clock_out_idle_noop_witness :
    clock_in 500 501 tcActive = .ok (100, tcActive) ∧
    clock_out 500 501 tcIdle = (none, tcIdle) := by
  have h := clock_in_active_clock_out_idle_noop tcActive 1 openSess 500 501 500 501
    rfl (by decide) (by decide)
  exact ⟨h.1, h.2 tcIdle rfl⟩

/-- C10: when the cached session id is set but the store holds no open
session, `clock_in` raises (it subscripts the `None` returned by
`get_current_session`), while `clock_out` in the same state returns `none`
without error and changes nothing. -/
theorem clock_in_stale_id_error (tc : TimeClock) (i : Int)
    (tIns tRet tCalc tEnd : Int)
    (hid : tc.current_session_id = some i) (hi : i ≠ 0)
    (hclosed : ∀ s ∈ tc.db.sessions, s.end_time ≠ none) :
    clock_in tIns tRet tc = .error .typeError ∧
    clock_out tCalc tEnd tc = (none, tc) := by
  have hnone := get_current_session_eq_none tc.db hclosed
  constructor
  · simp [clock_in, pyTruthyId, hid, hi, hnone]
  · simp [clock_out, pyTruthyId, hid, hi, hnone]

/-- Witness for C10 at a concrete desynchronized state. -/
theorem clock_in_stale_id_error_witness :
    clock_in 500 501 tcStale = .error .typeError ∧
    clock_out 500 501 tcStale = (none, tcStale) :=
  clock_in_stale_id_error tcStale 2 500 501 500 501 rfl (by decide) (by decide)

theorem end_session_mem (sessionId : Int) (e : ℚ) (m : String) (t : Int)
    (st : Store) (r : Session)
    (hr : r ∈ (end_session sessionId e m t st).sessions)
    (hid : r.id = sessionId) :
    r.end_time = some t ∧ r.earnings = some e ∧ r.memo = some m := by
  simp only [end_session] at hr
  obtain ⟨orig, horig, hfe⟩ := List.mem_map.mp hr
  by_cases h : orig.id = sessionId
  · rw [if_pos h] at hfe
    subst hfe
    exact ⟨rfl, rfl, rfl⟩
  · rw [if_neg h] at hfe
    subst hfe
    exact absurd hid h

/-! ### C2: the at-most-one-open-session invariant -/

/-- C2 (amended): `clock_out` always preserves the at-most-one-open-session
invariant and `clock_in` preserves it whenever a falsy cached id implies an
open-session-free store, but the editor's end-time edit to `'null'` and its
creation of a session without an end time perform no such check and can
produce a second open session. -/
theorem open_session_invariant (tc : TimeClock) (tIns tRet tCalc tEnd : Int) :
    (atMostOneOpen tc.db → atMostOneOpen (clock_out tCalc tEnd tc).2.db) ∧
    (atMostOneOpen tc.db →
      (pyTruthyId tc.current_session_id = false → countOpen tc.db.sessions = 0) →
      ∀ r tc', clock_in tIns tRet tc = .ok (r, tc') → atMostOneOpen tc'.db) ∧
    (∃ st sess, atMostOneOpen st ∧
      ¬ atMostOneOpen (edit_end_time sess none 50 st)) ∧
    (∃ st startDt, atMostOneOpen st ∧
      ¬ atMostOneOpen (create_new_session startDt none 0 st)) := by
  refine ⟨?_, ?_, ⟨stInv, closedSess, by decide, by decide⟩,
    ⟨stInv, 300, by decide, by decide⟩⟩
  · intro h
    unfold atMostOneOpen at h ⊢
    unfold clock_out
    by_cases ht : pyTruthyId tc.current_session_id = true
    · rw [if_pos ht]
      cases hc : get_current_session tc.db with
      | none => exact h
      | some sess => exact le_trans (countOpen_end_session _ _ _ _ _) h
    · rw [if_neg ht]
      exact h
  · intro h hsync r tc' heq
    unfold clock_in at heq
    by_cases ht : pyTruthyId tc.current_session_id = true
    · rw [if_pos ht] at heq
      cases hc : get_current_session tc.db with
      | none =>
        rw [hc] at heq
        cases heq
      | some sess =>
        rw [hc] at heq
        simp only [Except.ok.injEq, Prod.mk.injEq] at heq
        rw [← heq.2]
        exact h
    · rw [if_neg ht] at heq
      have hb : pyTruthyId tc.current_session_id = false := by
        simpa using ht
      have h0 : countOpen tc.db.sessions = 0 := hsync hb
      simp only [start_session, Except.ok.injEq, Prod.mk.injEq] at heq
      rw [← heq.2]
      unfold atMostOneOpen
      show countOpen (tc.db.sessions ++ [⟨tc.db.nextSessionId, tIns, none, none, none⟩]) ≤ 1
      unfold countOpen at h0 ⊢
      rw [List.countP_append]
      simp [h0]

/-- Counterexample for C2: a store satisfying the invariant on which the
editor's end-time edit to `'null'` leaves two sessions open. -/
theorem open_session_invariant_counterexample :
    atMostOneOpen stInv ∧
    ¬ atMostOneOpen (edit_end_time closedSess none 50 stInv) := by
  exact ⟨by decide, by decide⟩

/-- Witness for C2 at a concrete Active state. -/
theorem open_session_invariant_witness :
    atMostOneOpen (clock_out 3700 3701 tcActive).2.db :=
  (open_session_invariant tcActive 500 501 3700 3701).1 (by decide)

/-! ### C4: the earnings computed by clock_out -/

/-- C4 (amended): closing a session persists earnings equal to
(tCalc − start)/3600 × rate, where `tCalc` is the `datetime.now()` sampled in
`clock_out`; the persisted end timestamp is the later `datetime.now()` sampled
inside `end_session`, so the claimed formula in terms of the persisted end
timestamp holds exactly when the two samples coincide. -/
theorem clock_out_earnings_formula (tc : TimeClock) (i : Int) (sess : Session)
    (tCalc tEnd : Int) (hid : tc.current_session_id = some i) (hi : i ≠ 0)
    (hsess : get_current_session tc.db = some sess) :
    (clock_out tCalc tEnd tc).1 =
      some (((tCalc - sess.start_time : Int) : ℚ) / 3600 * tc.hourly_rate) ∧
    (∀ r ∈ (clock_out tCalc tEnd tc).2.db.sessions, r.id = i →
      r.end_time = some tEnd ∧
      r.earnings =
        some (((tCalc - sess.start_time : Int) : ℚ) / 3600 * tc.hourly_rate)) ∧
    (tCalc = tEnd →
      ∀ r ∈ (clock_out tCalc tEnd tc).2.db.sessions, r.id = i →
        r.earnings =
          some (((tEnd - sess.start_time : Int) : ℚ) / 3600 * tc.hourly_rate)) := by
  have ht : pyTruthyId tc.current_session_id = true := by
    simp [pyTruthyId, hid, hi]
  have hres : clock_out tCalc tEnd tc =
      (some (((tCalc - sess.start_time : Int) : ℚ) / 3600 * tc.hourly_rate),
       { tc with
          db := end_session i
            (((tCalc - sess.start_time : Int) : ℚ) / 3600 * tc.hourly_rate) "" tEnd tc.db
          current_session_id := none }) := by
    unfold clock_out
    rw [if_pos ht, hsess, hid]
    rfl
  rw [hres]
  refine ⟨rfl, ?_, ?_⟩
  · intro r hr hrid
    have := end_session_mem i _ "" tEnd tc.db r hr hrid
    exact ⟨this.1, this.2.1⟩
  · intro hteq r hr hrid
    have := end_session_mem i _ "" tEnd tc.db r hr hrid
    rw [← hteq]
    exact this.2.1

/-- Counterexample for C4: a session closed via `clock_out` whose persisted
earnings differ from (persisted end − start)/3600 × rate, because the
persisted end timestamp was sampled after the one used for the computation. -/
theorem clock_out_earnings_counterexample :
    (clock_out 3700 3701 tcActive).2.db.sessions.find?
        (fun s => decide (s.id = 1)) = some coSess ∧
    coSess.start_time = 100 ∧ coSess.end_time = some 3701 ∧
    coSess.earnings ≠ some (((3701 - 100 : Int) : ℚ) / 3600 * 50) := by
  refine ⟨rfl, rfl, rfl, ?_⟩
  simp only [coSess, ne_eq, Option.some.injEq]
  norm_num

/-- Witness for C4 at a concrete Active state. -/
theorem clock_out_earnings_formula_witness :
    (clock_out 3700 3701 tcActive).1 =
      some (((3700 - 100 : Int) : ℚ) / 3600 * 50) ∧
    coSess.end_time = some 3701 ∧
    coSess.earnings = some (((3700 - 100 : Int) : ℚ) / 3600 * 50) :=
  have h := clock_out_earnings_formula tcActive 1 openSess 3700 3701 rfl
    (by decide) (by decide)
  have hm : coSess ∈ (clock_out 3700 3701 tcActive).2.db.sessions :=
    List.Mem.head _
  ⟨h.1, (h.2.1 coSess hm rfl).1, (h.2.1 coSess hm rfl).2⟩

/-! ### C3: billing-cycle auto-creation -/

theorem get_current_billing_cycle_eq_none_iff (today : Int) (st : Store) :
    get_current_billing_cycle today st = none ↔
      ∀ c ∈ st.cycles, covers today c = false := by
  unfold get_current_billing_cycle
  rw [pickLatest_eq_none_iff, List.filter_eq_nil_iff]
  constructor
  · intro h c hc
    simpa using h c hc
  · intro h c hc
    simp [h c hc]

/-- C3: when no existing cycle covers today, `_ensure_billing_cycle` appends
exactly one cycle, starting on the most recent Friday on or before today
(today itself when today is a Friday) and ending 13 days later; when a cycle
covers today nothing is created, and a second run on the same day is a no-op. -/
theorem ensure_billing_cycle_spec (today : Int) (st : Store) :
    ((∀ c ∈ st.cycles, covers today c = false) →
      (ensure_billing_cycle today st).cycles = st.cycles ++ [derivedCycle today st] ∧
      weekday (derivedCycle today st).start_date = 4 ∧
      (derivedCycle today st).start_date ≤ today ∧
      today < (derivedCycle today st).start_date + 7 ∧
      (derivedCycle today st).end_date = (derivedCycle today st).start_date + 13 ∧
      (weekday today = 4 → (derivedCycle today st).start_date = today)) ∧
    ((∃ c ∈ st.cycles, covers today c = true) → ensure_billing_cycle today st = st) ∧
    ensure_billing_cycle today (ensure_billing_cycle today st) =
      ensure_billing_cycle today st := by
  have harith : weekday (cycleStartFor today) = 4 ∧ cycleStartFor today ≤ today ∧
      today < cycleStartFor today + 7 ∧
      (weekday today = 4 → cycleStartFor today = today) := by
    unfold weekday cycleStartFor weekday
    omega
  refine ⟨?_, ?_, ?_⟩
  · intro h
    have hnone : get_current_billing_cycle today st = none :=
      (get_current_billing_cycle_eq_none_iff today st).mpr h
    unfold ensure_billing_cycle
    rw [hnone]
    exact ⟨rfl, harith.1, harith.2.1, harith.2.2.1, rfl, harith.2.2.2⟩
  · rintro ⟨c, hc, hcov⟩
    cases hg : get_current_billing_cycle today st with
    | none =>
      have := (get_current_billing_cycle_eq_none_iff today st).mp hg c hc
      rw [hcov] at this
      cases this
    | some c0 =>
      unfold ensure_billing_cycle
      rw [hg]
  · cases hg : get_current_billing_cycle today st with
    | some c0 =>
      have h1 : ensure_billing_cycle today st = st := by
        unfold ensure_billing_cycle
        rw [hg]
      rw [h1]
      unfold ensure_billing_cycle
      rw [hg]
    | none =>
      have h1 : ensure_billing_cycle today st =
          { st with
              cycles := st.cycles ++ [derivedCycle today st]
              nextCycleId := st.nextCycleId + 1 } := by
        unfold ensure_billing_cycle
        rw [hg]
        rfl
      have hcov : covers today (derivedCycle today st) = true := by
        unfold covers derivedCycle
        simp only [decide_eq_true_eq]
        constructor
        · exact harith.2.1
        · omega
      have hfil : st.cycles.filter (covers today) = [] := by
        have hall := (get_current_billing_cycle_eq_none_iff today st).mp hg
        rw [List.filter_eq_nil_iff]
        intro c hc
        simp [hall c hc]
      have hg2 : get_current_billing_cycle today
          { st with
              cycles := st.cycles ++ [derivedCycle today st]
              nextCycleId := st.nextCycleId + 1 } =
          some (derivedCycle today st) := by
        unfold get_current_billing_cycle
        show pickLatest _ ((st.cycles ++ [derivedCycle today st]).filter (covers today)) = _
        rw [List.filter_append, hfil]
        simp only [List.filter_cons, hcov, if_pos, List.filter_nil, List.nil_append]
        rfl
      rw [h1]
      unfold ensure_billing_cycle
      rw [hg2]

/-- Witness for C3: on day 10 over an empty store exactly one cycle appears,
it starts on a Friday on or before day 10, and a second run changes nothing. -/
theorem ensure_billing_cycle_spec_witness :
    (ensure_billing_cycle 10 emptyStore).cycles = [derivedCycle 10 emptyStore] ∧
    weekday (derivedCycle 10 emptyStore).start_date = 4 ∧
    (derivedCycle 10 emptyStore).start_date ≤ 10 ∧
    ensure_billing_cycle 10 (ensure_billing_cycle 10 emptyStore) =
      ensure_billing_cycle 10 emptyStore := by
  have h := ensure_billing_cycle_spec 10 emptyStore
  have h1 := h.1 (by simp [emptyStore])
  exact ⟨h1.1, h1.2.1, h1.2.2.1, h.2.2⟩

/-! ### C6: billing-cycle earnings aggregation -/

/-- C6: the store's `billingCycleEarnings` equals the spec's sum of non-NULL
earnings over the sessions whose start date lies in the cycle's inclusive date
range, and it is zero when the cycle id is unknown or no session matches. -/
theorem get_billing_cycle_earnings_correct (cycleId : Int) (st : Store) :
    get_billing_cycle_earnings cycleId st = cycle_earnings_spec cycleId st ∧
    (st.cycles.find? (fun c => decide (c.id = cycleId)) = none →
      get_billing_cycle_earnings cycleId st = 0) ∧
    (∀ c, st.cycles.find? (fun c => decide (c.id = cycleId)) = some c →
      (st.sessions.filter fun s =>
        decide (c.start_date ≤ pyDate s.start_time ∧ pyDate s.start_time ≤ c.end_date ∧
          s.earnings ≠ none)) = [] →
      get_billing_cycle_earnings cycleId st = 0) := by
  unfold get_billing_cycle_earnings cycle_earnings_spec
  cases hf : st.cycles.find? (fun c => decide (c.id = cycleId)) with
  | none =>
    refine ⟨rfl, fun _ => rfl, fun c hc => ?_⟩
    cases hc
  | some c =>
    refine ⟨?_, fun h => ?_, fun c0 hc0 hfil => ?_⟩
    · show (match sql_sum_earnings (st.sessions.filter fun s =>
          decide (c.start_date ≤ pyDate s.start_time ∧ pyDate s.start_time ≤ c.end_date ∧
            s.earnings ≠ none)) with
        | none => (0 : ℚ)
        | some t => if t = 0 then 0 else t) =
        ((st.sessions.filter fun s =>
          decide (c.start_date ≤ pyDate s.start_time ∧ pyDate s.start_time ≤ c.end_date ∧
            s.earnings ≠ none)).map fun s => s.earnings.getD 0).sum
      cases hrows : st.sessions.filter fun s =>
        decide (c.start_date ≤ pyDate s.start_time ∧ pyDate s.start_time ≤ c.end_date ∧
          s.earnings ≠ none) with
      | nil =>
        simp [sql_sum_earnings]
      | cons a t =>
        simp only [sql_sum_earnings, List.isEmpty_cons]
        simp only [Bool.false_eq_true, if_false, ite_eq_right_iff]
        exact fun h => h.symm
    · cases h
    · cases hc0
      show (match sql_sum_earnings (st.sessions.filter fun s =>
          decide (c.start_date ≤ pyDate s.start_time ∧ pyDate s.start_time ≤ c.end_date ∧
            s.earnings ≠ none)) with
        | none => (0 : ℚ)
        | some t => if t = 0 then 0 else t) = (0 : ℚ)
      rw [hfil]
      simp [sql_sum_earnings]

/-- Witness for C6: over the fixture store, the store function agrees with the
spec sum on the existing cycle and returns zero for an unknown cycle id. -/
theorem get_billing_cycle_earnings_correct_witness :
    get_billing_cycle_earnings 1 stCycleFix = cycle_earnings_spec 1 stCycleFix ∧
    get_billing_cycle_earnings 99 stCycleFix = 0 :=
  ⟨(get_billing_cycle_earnings_correct 1 stCycleFix).1,
   (get_billing_cycle_earnings_correct 99 stCycleFix).2.1 (by decide)⟩

/-! ### C7: the editor recomputes earnings -/

/-- C7: for a session with both bounds present, editing the start time or the
end time persists earnings recomputed as the new duration in hours times the
hourly rate, and editing the end time to `'null'` persists a NULL end time
with earnings zero. -/
theorem editor_recompute_earnings (st : Store) (sess : Session)
    (hourlyRate : ℚ) (newStart newEnd endTime : Int)
    (he : sess.end_time = some endTime) :
    (∀ r ∈ (edit_start_time sess newStart hourlyRate st).sessions,
      r.id = sess.id →
      r.start_time = newStart ∧
      r.earnings = some (((endTime - newStart : Int) : ℚ) / 3600 * hourlyRate)) ∧
    (∀ r ∈ (edit_end_time sess (some newEnd) hourlyRate st).sessions,
      r.id = sess.id →
      r.end_time = some newEnd ∧
      r.earnings = some (((newEnd - sess.start_time : Int) : ℚ) / 3600 * hourlyRate)) ∧
    (∀ r ∈ (edit_end_time sess none hourlyRate st).sessions, r.id = sess.id →
      r.end_time = none ∧ r.earnings = some 0) := by
  refine ⟨?_, ?_, ?_⟩
  · intro r hr hrid
    simp only [edit_start_time, he] at hr
    obtain ⟨orig, horig, hfe⟩ := List.mem_map.mp hr
    by_cases h : orig.id = sess.id
    · rw [if_pos h] at hfe
      subst hfe
      exact ⟨rfl, rfl⟩
    · rw [if_neg h] at hfe
      subst hfe
      exact absurd hrid h
  · intro r hr hrid
    simp only [edit_end_time] at hr
    obtain ⟨orig, horig, hfe⟩ := List.mem_map.mp hr
    by_cases h : orig.id = sess.id
    · rw [if_pos h] at hfe
      subst hfe
      exact ⟨rfl, rfl⟩
    · rw [if_neg h] at hfe
      subst hfe
      exact absurd hrid h
  · intro r hr hrid
    simp only [edit_end_time] at hr
    obtain ⟨orig, horig, hfe⟩ := List.mem_map.mp hr
    by_cases h : orig.id = sess.id
    · rw [if_pos h] at hfe
      subst hfe
      exact ⟨rfl, rfl⟩
    · rw [if_neg h] at hfe
      subst hfe
      exact absurd hrid h

/-- Witness for C7 on the fixture store: the completed session's row after a
start-time edit to 110 and after an end-time edit to `'null'`. -/
theorem editor_recompute_earnings_witness :
    editStartRow.start_time = 110 ∧
    editStartRow.earnings = some (((200 - 110 : Int) : ℚ) / 3600 * 50) ∧
    editNullRow.end_time = none ∧ editNullRow.earnings = some 0 := by
  obtain ⟨h1, h2, h3⟩ := editor_recompute_earnings stInv closedSess 50 110 300 200 rfl
  have m1 : editStartRow ∈ (edit_start_time closedSess 110 50 stInv).sessions :=
    List.Mem.tail _ (List.Mem.head _)
  have m3 : editNullRow ∈ (edit_end_time closedSess none 50 stInv).sessions :=
    List.Mem.tail _ (List.Mem.head _)
  exact ⟨(h1 editStartRow m1 rfl).1, (h1 editStartRow m1 rfl).2,
    (h3 editNullRow m3 rfl).1, (h3 editNullRow m3 rfl).2⟩

/-! ### C8: the CSV exporter -/

/-- C8: the exporter writes exactly one row per session having both a start
and an end timestamp (sessions with a NULL end time produce no row), and the
totals row's duration and earnings equal the sums of the duration and earnings
cells over exactly the rows written. -/
theorem export_to_csv_spec (hourlyRate : ℚ) (sessions : List Session) :
    (export_to_csv hourlyRate sessions).1 =
      (sessions.filter fun s => s.end_time.isSome).map
        (fun s => mkCsvRow hourlyRate s (s.end_time.getD 0)) ∧
    (export_to_csv hourlyRate sessions).2.1 =
      ((export_to_csv hourlyRate sessions).1.map fun r => r.durationHours).sum ∧
    (export_to_csv hourlyRate sessions).2.2 =
      ((export_to_csv hourlyRate sessions).1.map fun r => r.earningsCell).sum := by
  induction sessions with
  | nil => exact ⟨rfl, rfl, rfl⟩
  | cons s rest ih =>
    obtain ⟨ih1, ih2, ih3⟩ := ih
    cases he : s.end_time with
    | none =>
      have hred : export_to_csv hourlyRate (s :: rest) = export_to_csv hourlyRate rest := by
        simp only [export_to_csv, he]
      have hfalse : s.end_time.isSome = false := by rw [he]; rfl
      rw [hred, List.filter_cons, hfalse]
      simp only [Bool.false_eq_true, if_false]
      exact ⟨ih1, ih2, ih3⟩
    | some endTime =>
      have hred : export_to_csv hourlyRate (s :: rest) =
          (mkCsvRow hourlyRate s endTime :: (export_to_csv hourlyRate rest).1,
           (export_to_csv hourlyRate rest).2.1 +
             ((endTime - s.start_time : Int) : ℚ) / 3600,
           if pyTruthyEarnings s.earnings then
             (export_to_csv hourlyRate rest).2.2 + s.earnings.getD 0
           else (export_to_csv hourlyRate rest).2.2) := by
        simp only [export_to_csv, he]
      have hsome : s.end_time.isSome = true := by rw [he]; rfl
      have hgd : s.end_time.getD 0 = endTime := by rw [he]; rfl
      rw [hred, List.filter_cons, hsome]
      simp only [eq_self_iff_true, ite_true, List.map_cons, List.sum_cons]
      refine ⟨?_, ?_, ?_⟩
      · rw [ih1, hgd]
      · rw [← ih2]
        simp only [mkCsvRow]
        ring
      · rw [← ih3]
        simp only [mkCsvRow]
        by_cases ht : pyTruthyEarnings s.earnings = true
        · rw [if_pos ht, if_pos ht]
          ring
        · rw [if_neg ht, if_neg ht]
          ring

/-! ### C9: config-file loading -/

/-- C9 (amended): the main app's loader adopts the documented defaults and
writes them out when the file is missing, and adopts them in memory without
overwriting the file when the JSON is malformed; the exporter's loader instead
adopts only `database_path = "timeclock.db"` and never writes the file; no
error propagates from either loader. -/
theorem load_config_spec :
    app_load_config .missing = (defaultConfig, .valid defaultConfig) ∧
    app_load_config .malformed = (defaultConfig, .malformed) ∧
    (∀ c, app_load_config (.valid c) = (c, .valid c)) ∧
    exporter_load_config .missing = (exporterFallbackConfig, .missing) ∧
    exporter_load_config .malformed = (exporterFallbackConfig, .malformed) ∧
    (∀ c, exporter_load_config (.valid c) = (c, .valid c)) ∧
    defaultConfig.hourly_rate = some 50 ∧
    defaultConfig.auto_clock_in = some true ∧
    defaultConfig.auto_clock_out = some true ∧
    defaultConfig.database_path = some "timeclock.db" :=
  ⟨rfl, rfl, fun _ => rfl, rfl, rfl, fun _ => rfl, rfl, rfl, rfl, rfl⟩

/-- Counterexample for C9: with the config file missing, the exporter's loader
does not adopt the documented defaults and does not write them out — the file
stays missing and the adopted config has no hourly rate. -/
theorem exporter_load_config_counterexample :
    (exporter_load_config .missing).2 = ConfigFile.missing ∧
    (exporter_load_config .missing).1.hourly_rate = none ∧
    exporter_load_config .missing ≠ (defaultConfig, .valid defaultConfig) := by
  refine ⟨rfl, rfl, ?_⟩
  decide
